import Mathlib

/-!
Verification model of the videomeet signaling / upload server
(`server/index.js`).  The server keeps an in-memory registry of rooms
(a JS `Map` from uppercase room code to a `Room` object), per-socket
context (`socket.roomId`, `socket.nickname`), socket.io room membership,
and a per-connection table of chunked upload sessions.  Every handler of
`io.on('connection')` is translated below as a pure transition function
on an explicit state, returning the list of emitted events.
-/

/-! ### Association lists mirroring JS `Map`

JS `Map` preserves insertion order; `set` updates an existing key in
place (keeping its position) or appends a fresh one; `delete` removes
the entry; iteration (`keys()`, `values()`, `entries()`) follows
insertion order.  We model a `Map` as an insertion-ordered list of
key/value pairs. -/

def alGet {K V : Type} [DecidableEq K] : List (K × V) → K → Option V
  | [], _ => none
  | p :: t, k => if p.1 = k then some p.2 else alGet t k

def alSet {K V : Type} [DecidableEq K] : List (K × V) → K → V → List (K × V)
  | [], k, v => [(k, v)]
  | p :: t, k, v => if p.1 = k then (k, v) :: t else p :: alSet t k v

def alErase {K V : Type} [DecidableEq K] (l : List (K × V)) (k : K) : List (K × V) :=
  l.filter (fun p => p.1 ≠ k)

def alHas {K V : Type} [DecidableEq K] (l : List (K × V)) (k : K) : Bool :=
  (alGet l k).isSome

/-- JS `String.prototype.toUpperCase` on the code points (kernel-computable
replacement for `String.toUpper`). -/
def jsToUpper (s : String) : String := ⟨s.data.map Char.toUpper⟩

/-- JS `String.prototype.substring(0, n)`. -/
def jsTake (s : String) (n : Nat) : String := ⟨s.data.take n⟩

/-! ### Data model (`server/index.js`) -/

/-- The per-participant record stored in `room.participants`
(built in the `join-room` handler). -/
structure UserData where
  nickname : String
  isMuted : Bool
  isVideoEnabled : Bool
  isHandRaised : Bool
  joinedAt : Nat
  deriving DecidableEq, Repr

/-- The file metadata object built by the upload endpoints. -/
structure FileMeta where
  id : String
  originalName : String
  mimeType : String
  size : Nat
  url : String
  uploadedAt : Nat
  deriving DecidableEq, Repr

/-- A chat record as pushed onto `room.messages`. -/
structure ChatMessage where
  id : String
  socketId : String
  nickname : Option String
  message : String
  file : Option FileMeta
  timestamp : Nat
  deriving DecidableEq, Repr

/-- The `Room` class: id, host reference, insertion-ordered participant
map keyed by socket id, creation time, and the chat log. -/
structure Room where
  id : String
  hostId : String
  participants : List (String × UserData)
  createdAt : Nat
  messages : List ChatMessage
  deriving DecidableEq, Repr

def MAX_PARTICIPANTS : Nat := 10

/-- `Room.addParticipant`: refuses once the participant map holds
`MAX_PARTICIPANTS` entries, otherwise inserts and reports success. -/
def Room.addParticipant (r : Room) (socketId : String) (u : UserData) : Room × Bool :=
  if r.participants.length ≥ MAX_PARTICIPANTS then (r, false)
  else ({ r with participants := alSet r.participants socketId u }, true)

/-- `Room.removeParticipant`: deletes the entry; if the host left and
someone remains, the first key in insertion order becomes host. -/
def Room.removeParticipant (r : Room) (socketId : String) : Room :=
  let ps := alErase r.participants socketId
  let newHost :=
    if r.hostId = socketId then
      match ps with
      | [] => r.hostId
      | p :: _ => p.1
    else r.hostId
  { r with participants := ps, hostId := newHost }

/-- Per-socket mutable fields set by the `join-room` handler
(`socket.roomId`, `socket.nickname`); both start out undefined. -/
structure SockCtx where
  roomId : Option String := none
  nickname : Option String := none
  deriving DecidableEq, Repr

/-- The server's mutable state: the `rooms` registry, socket.io room
membership pairs (socket id, room name) accumulated by `socket.join`,
and the per-socket context fields. -/
structure ServerState where
  rooms : List (String × Room)
  sio : List (String × String)
  socks : List (String × SockCtx)
  deriving DecidableEq, Repr

/-- Events emitted server → client. -/
inductive OutEvent where
  | errorMsg (message : String)
  | roomJoined (roomId : String) (participants : List (String × UserData)) (isHost : Bool)
  | userJoined (socketId : String) (u : UserData)
  | userLeft (socketId : String) (nickname : Option String)
  | offerEv (offer : String) (fromId : String)
  | answerEv (answer : String) (fromId : String)
  | chatMsg (m : ChatMessage)
  | userMuteChanged (socketId : String) (isMuted : Bool)
  | userHandRaised (socketId : String) (isHandRaised : Bool) (nickname : Option String)
  deriving DecidableEq, Repr

/-- An emission together with its addressing: `socket.emit` goes to one
socket, `socket.to(room).emit` to every member of the socket.io room
except the sender, `io.to(room).emit` to every member including the
sender. -/
inductive Emit where
  | toSock (sid : String) (ev : OutEvent)
  | toRoomExcept (room : String) (sender : String) (ev : OutEvent)
  | toRoom (room : String) (ev : OutEvent)
  deriving DecidableEq, Repr

/-- The concrete recipients of an `Emit`, resolved against the
socket.io membership pairs of the state. -/
def emitRecipients (st : ServerState) : Emit → List String
  | .toSock sid _ => [sid]
  | .toRoomExcept room sender _ =>
      ((st.sio.filter (fun m => m.2 = room ∧ m.1 ≠ sender)).map Prod.fst).dedup
  | .toRoom room _ =>
      ((st.sio.filter (fun m => m.2 = room)).map Prod.fst).dedup

/-- `POST /api/create-room`: mints `uuidv4().substring(0, 8).toUpperCase()`
as the code (the fresh uuid is an input here), takes
`req.body.hostId || 'temp-host'` as the host reference, and registers an
empty room. -/
def createRoom (st : ServerState) (uuid : String) (hostId : Option String) (now : Nat) :
    ServerState × String :=
  let roomId := jsToUpper (jsTake uuid 8)
  let effHost :=
    match hostId with
    | none => "temp-host"
    | some h => if h = "" then "temp-host" else h
  let room : Room := { id := roomId, hostId := effHost, participants := [], createdAt := now, messages := [] }
  ({ st with rooms := alSet st.rooms roomId room }, roomId)

/-- `GET /api/room/:id` resolves `req.params.id.toUpperCase()` in the
registry (case-folded lookup). -/
def lookupRoom (st : ServerState) (code : String) : Option Room :=
  alGet st.rooms (jsToUpper code)

/-- The `join-room` handler.  Looks up `roomId.toUpperCase()`; missing
room → `error "Room not found"`; a socket already in the participant
map just gets the current view back; a full room → `error "Room is
full"`; a duplicate nickname → `error "Nickname already taken"`;
otherwise the participant is inserted with default flags, the socket
joins the socket.io room under the *raw* `roomId` string, stores the raw
`roomId` and the nickname on the socket, `user-joined` goes to the
others, and `room-joined` with the updated view goes to the joiner. -/
def onJoinRoom (st : ServerState) (sockId roomIdArg nickname : String) (now : Nat) :
    ServerState × List Emit :=
  match alGet st.rooms (jsToUpper roomIdArg) with
  | none => (st, [.toSock sockId (.errorMsg "Room not found")])
  | some room =>
    if alHas room.participants sockId then
      (st, [.toSock sockId (.roomJoined roomIdArg room.participants (room.hostId = sockId))])
    else if room.participants.length ≥ MAX_PARTICIPANTS then
      (st, [.toSock sockId (.errorMsg "Room is full")])
    else if (room.participants.map (fun p => p.2.nickname)).contains nickname then
      (st, [.toSock sockId (.errorMsg "Nickname already taken")])
    else
      let u : UserData :=
        { nickname := nickname, isMuted := false, isVideoEnabled := true,
          isHandRaised := false, joinedAt := now }
      let res := room.addParticipant sockId u
      if res.2 then
        let room' := res.1
        let st' : ServerState :=
          { rooms := alSet st.rooms (jsToUpper roomIdArg) room',
            sio := (sockId, roomIdArg) :: st.sio,
            socks := alSet st.socks sockId { roomId := some roomIdArg, nickname := some nickname } }
        (st', [.toRoomExcept roomIdArg sockId (.userJoined sockId u),
               .toSock sockId (.roomJoined roomIdArg room'.participants (room'.hostId = sockId))])
      else (st, [])

/-- The `offer` handler: `socket.to(data.roomId).emit('offer', { offer,
from: socket.id })`.  The `to` field of the payload is never read, and
no membership check is made on the sender. -/
def onOffer (st : ServerState) (sockId roomIdArg payload toArg : String) :
    ServerState × List Emit :=
  let _ := toArg
  (st, [.toRoomExcept roomIdArg sockId (.offerEv payload sockId)])

/-- The `answer` handler, symmetric to `onOffer`. -/
def onAnswer (st : ServerState) (sockId roomIdArg payload toArg : String) :
    ServerState × List Emit :=
  let _ := toArg
  (st, [.toRoomExcept roomIdArg sockId (.answerEv payload sockId)])

/-- The value of the `socket.roomId` field (undefined until a
successful join). -/
def sockRoomId (st : ServerState) (sockId : String) : Option String :=
  (alGet st.socks sockId).bind (fun ctx => ctx.roomId)

/-- The value of the `socket.nickname` field. -/
def sockNickname (st : ServerState) (sockId : String) : Option String :=
  (alGet st.socks sockId).bind (fun ctx => ctx.nickname)

/-- The `chat-message` handler: resolves `rooms.get(socket.roomId)`
with the raw stored string; when found it appends a record with the
given text and `data.file || null` and broadcasts it to the whole room
(including the sender); otherwise the message is dropped. -/
def onChatMessage (st : ServerState) (sockId : String) (message : String)
    (file : Option FileMeta) (newId : String) (now : Nat) : ServerState × List Emit :=
  match sockRoomId st sockId with
  | none => (st, [])
  | some rid =>
    match alGet st.rooms rid with
    | none => (st, [])
    | some room =>
      let m : ChatMessage :=
        { id := newId, socketId := sockId, nickname := sockNickname st sockId,
          message := message, file := file, timestamp := now }
      let room' := { room with messages := room.messages ++ [m] }
      ({ st with rooms := alSet st.rooms rid room' }, [.toRoom rid (.chatMsg m)])

/-- The `toggle-mute` handler: only acts when `rooms.get(socket.roomId)`
resolves and the sender is in the participant map; updates the flag and
notifies the others. -/
def onToggleMute (st : ServerState) (sockId : String) (isMuted : Bool) :
    ServerState × List Emit :=
  match sockRoomId st sockId with
  | none => (st, [])
  | some rid =>
    match alGet st.rooms rid with
    | none => (st, [])
    | some room =>
      match alGet room.participants sockId with
      | none => (st, [])
      | some u =>
        let room' := { room with participants := alSet room.participants sockId { u with isMuted := isMuted } }
        ({ st with rooms := alSet st.rooms rid room' },
         [.toRoomExcept rid sockId (.userMuteChanged sockId isMuted)])

/-- The `toggle-raise-hand` handler, analogous to `toggle-mute`; the
notification also carries `socket.nickname`. -/
def onToggleRaiseHand (st : ServerState) (sockId : String) (isHandRaised : Bool) :
    ServerState × List Emit :=
  match sockRoomId st sockId with
  | none => (st, [])
  | some rid =>
    match alGet st.rooms rid with
    | none => (st, [])
    | some room =>
      match alGet room.participants sockId with
      | none => (st, [])
      | some u =>
        let room' := { room with participants := alSet room.participants sockId { u with isHandRaised := isHandRaised } }
        ({ st with rooms := alSet st.rooms rid room' },
         [.toRoomExcept rid sockId (.userHandRaised sockId isHandRaised (sockNickname st sockId))])

/-- The room part of the `disconnect` handler (the upload cleanup is
modelled by `uDisconnect` below): when `socket.roomId` is set, the room
is looked up with the RAW stored string (no case folding), the
participant is removed, `user-left` is broadcast, and an emptied room is
deleted from the registry.  The socket's context and its socket.io
memberships go away with the connection. -/
def onDisconnect (st : ServerState) (sockId : String) : ServerState × List Emit :=
  match sockRoomId st sockId with
  | none => ({ st with socks := alErase st.socks sockId, sio := st.sio.filter (fun m => m.1 ≠ sockId) }, [])
  | some rid =>
    match alGet st.rooms rid with
    | none => ({ st with socks := alErase st.socks sockId, sio := st.sio.filter (fun m => m.1 ≠ sockId) }, [])
    | some room =>
      let room' := room.removeParticipant sockId
      let emits := [Emit.toRoomExcept rid sockId (.userLeft sockId (sockNickname st sockId))]
      if room'.participants.length = 0 then
        ({ rooms := alErase st.rooms rid, socks := alErase st.socks sockId,
           sio := st.sio.filter (fun m => m.1 ≠ sockId) }, emits)
      else
        ({ rooms := alSet st.rooms rid room', socks := alErase st.socks sockId,
           sio := st.sio.filter (fun m => m.1 ≠ sockId) }, emits)

/-- One inbound event of the connection dispatcher. -/
inductive Event where
  | createRoom (uuid : String) (hostId : Option String) (now : Nat)
  | joinRoom (sockId roomId nickname : String) (now : Nat)
  | offer (sockId roomId payload toArg : String)
  | answer (sockId roomId payload toArg : String)
  | chatMessage (sockId : String) (message : String) (file : Option FileMeta) (newId : String) (now : Nat)
  | toggleMute (sockId : String) (isMuted : Bool)
  | toggleRaiseHand (sockId : String) (isHandRaised : Bool)
  | disconnect (sockId : String)
  deriving DecidableEq, Repr

/-- Dispatch of one event, as in `io.on('connection')`. -/
def step (st : ServerState) : Event → ServerState × List Emit
  | .createRoom uuid hostId now => ((createRoom st uuid hostId now).1, [])
  | .joinRoom sockId roomId nickname now => onJoinRoom st sockId roomId nickname now
  | .offer sockId roomId payload toArg => onOffer st sockId roomId payload toArg
  | .answer sockId roomId payload toArg => onAnswer st sockId roomId payload toArg
  | .chatMessage sockId message file newId now => onChatMessage st sockId message file newId now
  | .toggleMute sockId b => onToggleMute st sockId b
  | .toggleRaiseHand sockId b => onToggleRaiseHand st sockId b
  | .disconnect sockId => onDisconnect st sockId

def initState : ServerState := { rooms := [], sio := [], socks := [] }

/-- States reachable from the empty server. -/
inductive Reachable : ServerState → Prop where
  | init : Reachable initState
  | step {st : ServerState} (e : Event) : Reachable st → Reachable (step st e).1

/-! ### Chunked upload subsystem

`io.on('connection')` keeps a per-socket `ongoingUploads` map (upload id
→ session) next to the shared uploads directory on disk.  We model one
connection's view: its session table, the on-disk files (filename →
stored byte count), the set of filenames with an open write stream, and
the registry's key set (the `rooms.get` check of `file-upload-start`
only consults the keys).  The uuid upload id and the
timestamp+random-suffix storage filename generated by the handler are
inputs of the event, standing for the code's fresh-name generators. -/

def MAX_SOCKET_UPLOAD_BYTES : Nat := 25 * 1024 * 1024

/-- One entry of `ongoingUploads`. -/
structure UploadSession where
  uploadId : String
  filename : String
  originalName : String
  mimeType : String
  size : Nat
  bytesReceived : Nat
  closed : Bool
  deriving DecidableEq, Repr

/-- The upload-relevant state of one connection. -/
structure UploadConn where
  roomCodes : List String
  sessions : List (String × UploadSession)
  disk : List (String × Nat)
  openStreams : List String
  deriving DecidableEq, Repr

/-- Acknowledgement payloads of the three upload events. -/
inductive UAck where
  | okStart (uploadId : String)
  | okChunk (received : Nat)
  | okComplete (file : FileMeta)
  | err (message : String)
  deriving DecidableEq, Repr

/-- JS `a || b` on a possibly-absent string (absent and `""` are falsy). -/
def jsOrS (a : Option String) (b : String) : String :=
  match a with
  | none => b
  | some s => if s = "" then b else s

/-- The `file-upload-start` handler: resolves
`(roomId || socket.roomId || '').toUpperCase()` against the registry,
validates the declared size (`typeof size !== 'number' || size <= 0`
rejects, as does `size > MAX_SOCKET_UPLOAD_BYTES`), creates the storage
file with an open write stream, and registers the session. -/
def fileUploadStart (c : UploadConn) (roomId originalName mimeType : Option String)
    (sockRoomId : Option String) (size : Option Int) (uploadId filename : String) :
    UploadConn × UAck :=
  let effectiveRoomId := jsToUpper (jsOrS roomId (jsOrS sockRoomId ""))
  if ¬ c.roomCodes.contains effectiveRoomId then
    (c, .err "Room not found")
  else
    match size with
    | none => (c, .err "Invalid file size")
    | some z =>
      if z ≤ 0 then (c, .err "Invalid file size")
      else if z.toNat > MAX_SOCKET_UPLOAD_BYTES then (c, .err "File too large")
      else
        let s : UploadSession :=
          { uploadId := uploadId, filename := filename,
            originalName := jsOrS originalName filename,
            mimeType := jsOrS mimeType "application/octet-stream",
            size := z.toNat, bytesReceived := 0, closed := false }
        ({ c with sessions := alSet c.sessions uploadId s,
                  disk := alSet c.disk filename 0,
                  openStreams := filename :: c.openStreams },
         .okStart uploadId)

/-- The `file-upload-chunk` handler: unknown session → negative ack;
closed session → negative ack; missing chunk → negative ack; otherwise
the byte count is bumped first and, when it now exceeds the declared
size or the 25 MiB cap, the stream is destroyed, the partial file
unlinked and the session dropped with a `File exceeded declared size`
ack; otherwise the bytes are appended and the running total acked. -/
def fileUploadChunk (c : UploadConn) (uploadId : String) (chunkLen : Option Nat) :
    UploadConn × UAck :=
  match alGet c.sessions uploadId with
  | none => (c, .err "Unknown uploadId")
  | some s =>
    if s.closed then (c, .err "Upload already closed")
    else
      match chunkLen with
      | none => (c, .err "Empty chunk")
      | some len =>
        let newBytes := s.bytesReceived + len
        if newBytes > s.size ∨ newBytes > MAX_SOCKET_UPLOAD_BYTES then
          ({ c with sessions := alErase c.sessions uploadId,
                    disk := alErase c.disk s.filename,
                    openStreams := c.openStreams.filter (fun f => f ≠ s.filename) },
           .err "File exceeded declared size")
        else
          ({ c with sessions := alSet c.sessions uploadId { s with bytesReceived := newBytes },
                    disk := alSet c.disk s.filename ((alGet c.disk s.filename).getD 0 + len) },
           .okChunk newBytes)

/-- The `file-upload-complete` handler: unknown session → negative ack;
otherwise the session is marked closed, the stream is ended, and in the
close callback the session is dropped and the ack carries the FileMeta
built from the session (`size` is the running byte count, the url is
`/uploads/` + storage filename); the file itself stays on disk.  No
comparison of `bytesReceived` against the declared `size` is made. -/
def fileUploadComplete (c : UploadConn) (uploadId : String) (newFileId : String) (now : Nat) :
    UploadConn × UAck :=
  match alGet c.sessions uploadId with
  | none => (c, .err "Unknown uploadId")
  | some s =>
    let meta : FileMeta :=
      { id := newFileId, originalName := s.originalName, mimeType := s.mimeType,
        size := s.bytesReceived, url := "/uploads/" ++ s.filename, uploadedAt := now }
    ({ c with sessions := alErase c.sessions uploadId,
              openStreams := c.openStreams.filter (fun f => f ≠ s.filename) },
     .okComplete meta)

/-- The upload part of the `disconnect` handler: every session of
`ongoingUploads` has its write stream destroyed and its partial file
unlinked, then the map is cleared. -/
def uDisconnect (c : UploadConn) : UploadConn :=
  { c with sessions := [],
           disk := c.disk.filter (fun d => ¬ c.sessions.any (fun p => p.2.filename = d.1)),
           openStreams := c.openStreams.filter (fun f => ¬ c.sessions.any (fun p => p.2.filename = f)) }

/-- One upload-relevant event on the connection (`mintRoom` is the
registry insertion performed by `POST /api/create-room`). -/
inductive UEvent where
  | mintRoom (code : String)
  | start (roomId originalName mimeType : Option String) (sockRoomId : Option String)
      (size : Option Int) (uploadId filename : String)
  | chunk (uploadId : String) (chunkLen : Option Nat)
  | complete (uploadId : String) (newFileId : String) (now : Nat)
  | disconnect
  deriving DecidableEq, Repr

def ustep (c : UploadConn) : UEvent → UploadConn × Option UAck
  | .mintRoom code => ({ c with roomCodes := code :: c.roomCodes }, none)
  | .start roomId originalName mimeType sockRoomId size uploadId filename =>
      let r := fileUploadStart c roomId originalName mimeType sockRoomId size uploadId filename
      (r.1, some r.2)
  | .chunk uploadId chunkLen =>
      let r := fileUploadChunk c uploadId chunkLen
      (r.1, some r.2)
  | .complete uploadId newFileId now =>
      let r := fileUploadComplete c uploadId newFileId now
      (r.1, some r.2)
  | .disconnect => (uDisconnect c, none)

def uInit : UploadConn := { roomCodes := [], sessions := [], disk := [], openStreams := [] }

/-- Upload states reachable on one connection. -/
inductive UReachable : UploadConn → Prop where
  | init : UReachable uInit
  | step {c : UploadConn} (e : UEvent) : UReachable c → UReachable (ustep c e).1

/-! ### Screen-share arbitration (modelled from the spec)

Modelled from the spec: the server-side handlers for
`screen-share-start` and `screen-share-stop` (and the participants'
`screen-sharing` flag they maintain) are not present under `src` — only
the client emitters in `useWebRTC.ts` and the event declarations in
`types/index.ts` exist.  Following the spec: on `screen-share-start` the
event is broadcast to the room, the sender's flag is set and every other
participant's flag is atomically cleared; on `screen-share-stop` the
event is broadcast and the sender's flag is cleared.  One room's flags
are an insertion-ordered map from participant id to the flag. -/

/-- Broadcasts produced by the modelled screen-share handlers. -/
inductive ScreenEmit where
  | startEv (userId userName : String)
  | stopEv (userId : String)
  deriving DecidableEq, Repr

/-- Modelled from the spec: `screen-share-start` marks the sender as
sharing and clears every other participant's flag. -/
def screenShareStart (flags : List (String × Bool)) (userId : String) :
    List (String × Bool) :=
  flags.map (fun p => (p.1, p.1 = userId))

/-- Modelled from the spec: `screen-share-stop` clears the sender's
flag and leaves the others alone. -/
def screenShareStop (flags : List (String × Bool)) (userId : String) :
    List (String × Bool) :=
  flags.map (fun p => (p.1, if p.1 = userId then false else p.2))

/-- Screen-share relevant room events: participants joining (flag
defaults to false) and leaving, and the two arbitration events. -/
inductive SEvent where
  | join (userId : String)
  | leave (userId : String)
  | start (userId userName : String)
  | stop (userId : String)
  deriving DecidableEq, Repr

def sstep (flags : List (String × Bool)) : SEvent → List (String × Bool) × List ScreenEmit
  | .join u => (alSet flags u false, [])
  | .leave u => (alErase flags u, [])
  | .start u nm => (screenShareStart flags u, [.startEv u nm])
  | .stop u => (screenShareStop flags u, [.stopEv u])

/-- Screen-share flag states reachable in one room. -/
inductive SReachable : List (String × Bool) → Prop where
  | init : SReachable []
  | step {fl : List (String × Bool)} (e : SEvent) : SReachable fl → SReachable (sstep fl e).1

/-- Number of participants currently flagged as sharing. -/
def sharerCount (flags : List (String × Bool)) : Nat :=
  (flags.filter (fun p => p.2)).length

/-! ### Concrete scenario states used to settle individual claims -/

/-- A three-participant room: `room1xyz` is minted (code `ROOM1XYZ`) and
sockets A, B, C join it. -/
def c2State : ServerState :=
  (step ((step ((step ((step initState
    (Event.createRoom "room1xyz" none 0)).1)
    (Event.joinRoom "A" "ROOM1XYZ" "alice" 1)).1)
    (Event.joinRoom "B" "ROOM1XYZ" "bob" 2)).1)
    (Event.joinRoom "C" "ROOM1XYZ" "carol" 3)).1

/-- A freshly minted room `FULLROOM` filled by ten distinct joins. -/
def c3State : ServerState :=
  (List.range 10).foldl
    (fun s i => (step s (Event.joinRoom ("s" ++ toString i) "FULLROOM" ("n" ++ toString i) i)).1)
    ((step initState (Event.createRoom "fullroomZ" none 0)).1)

/-- The participant list of the full room above. -/
def c3Participants : List (String × UserData) :=
  ((alGet c3State.rooms "FULLROOM").map Room.participants).getD []

/-- The three-member room registered in `c2State`. -/
def c2Room : Room :=
  { id := "ROOM1XYZ", hostId := "temp-host",
    participants :=
      [("A", { nickname := "alice", isMuted := false, isVideoEnabled := true,
               isHandRaised := false, joinedAt := 1 }),
       ("B", { nickname := "bob", isMuted := false, isVideoEnabled := true,
               isHandRaised := false, joinedAt := 2 }),
       ("C", { nickname := "carol", isMuted := false, isVideoEnabled := true,
               isHandRaised := false, joinedAt := 3 })],
    createdAt := 0, messages := [] }

/-- The full room registered in `c3State`. -/
def c3Room : Room :=
  { id := "FULLROOM", hostId := "temp-host", participants := c3Participants,
    createdAt := 0, messages := [] }

/-- A freshly minted room `K7QZ9M2A` with the default `temp-host` host
reference and no participants. -/
def c4Minted : ServerState := (step initState (Event.createRoom "k7qz9m2a" none 0)).1

/-- The empty room as registered by `c4Minted`. -/
def c4Room : Room :=
  { id := "K7QZ9M2A", hostId := "temp-host", participants := [], createdAt := 0, messages := [] }

/-- A room with one member, used for the rejoin claim. -/
def c5Room : Room :=
  { id := "AB12CD34", hostId := "temp-host",
    participants := [("S1", { nickname := "alice", isMuted := false, isVideoEnabled := true,
                              isHandRaised := false, joinedAt := 1 })],
    createdAt := 0, messages := [] }

/-- The server state holding `c5Room`, as produced by a mint and a join. -/
def c5State : ServerState :=
  { rooms := [("AB12CD34", c5Room)],
    sio := [("S1", "AB12CD34")],
    socks := [("S1", { roomId := some "AB12CD34", nickname := some "alice" })] }

/-- Mint `AB12CD34`, then join it through the lower-case spelling of the
code (accepted, since the join lookup case-folds). -/
def c6Joined : ServerState :=
  (step ((step initState (Event.createRoom "ab12cd34" none 0)).1)
    (Event.joinRoom "S1" "ab12cd34" "alice" 1)).1

/-- Upload scenario: a room is minted and an upload of declared size
1000 is started, then two 400-byte chunks are appended. -/
def c7Mid : UploadConn :=
  (ustep ((ustep ((ustep ((ustep uInit
    (UEvent.mintRoom "ROOM1")).1)
    (UEvent.start (some "ROOM1") (some "a.bin") (some "application/x") none
      (some 1000) "u1" "a-1.bin")).1)
    (UEvent.chunk "u1" (some 400))).1)
    (UEvent.chunk "u1" (some 400))).1

/-- The session state after the two accepted chunks of `c7Mid`. -/
def c7Session : UploadSession :=
  { uploadId := "u1", filename := "a-1.bin", originalName := "a.bin",
    mimeType := "application/x", size := 1000, bytesReceived := 800, closed := false }

/-- Upload scenario for completion: declared size 1000, a single
400-byte chunk appended (a partial upload). -/
def c8Mid : UploadConn :=
  (ustep ((ustep ((ustep uInit
    (UEvent.mintRoom "ROOM1")).1)
    (UEvent.start (some "ROOM1") (some "b.bin") (some "application/x") none
      (some 1000) "u2" "b-1.bin")).1)
    (UEvent.chunk "u2" (some 400))).1

/-- The session state of the partial upload in `c8Mid`. -/
def c8Session : UploadSession :=
  { uploadId := "u2", filename := "b-1.bin", originalName := "b.bin",
    mimeType := "application/x", size := 1000, bytesReceived := 400, closed := false }

/-- A connection with one just-started upload session. -/
def c9State : UploadConn :=
  (ustep ((ustep uInit (UEvent.mintRoom "ROOM1")).1)
    (UEvent.start (some "ROOM1") (some "c.bin") none none (some 500) "u3" "c-1.bin")).1

/-- The freshly started session of `c9State`. -/
def c9Session : UploadSession :=
  { uploadId := "u3", filename := "c-1.bin", originalName := "c.bin",
    mimeType := "application/octet-stream", size := 500, bytesReceived := 0, closed := false }

/-- Mint `AB12CD34` and join it (upper-case), binding socket S1. -/
def c10Bound : ServerState :=
  (step ((step initState (Event.createRoom "ab12cd34" none 0)).1)
    (Event.joinRoom "S1" "AB12CD34" "alice" 1)).1

/-! ### Lemmas about the JS-map model -/

section AListLemmas

variable {K V : Type} [DecidableEq K]

theorem alGet_mem {l : List (K × V)} {k : K} {v : V} (h : alGet l k = some v) : (k, v) ∈ l := by
  induction l with
  | nil => simp [alGet] at h
  | cons p t ih =>
    obtain ⟨a, b⟩ := p
    by_cases ha : a = k
    · subst ha
      simp only [alGet, if_pos] at h
      simp_all
    · simp only [alGet, ha, if_neg, not_false_iff] at h
      exact List.mem_cons_of_mem _ (ih h)

theorem alGet_eq_none {l : List (K × V)} {k : K} : alGet l k = none ↔ ∀ p ∈ l, p.1 ≠ k := by
  induction l with
  | nil => simp [alGet]
  | cons p t ih =>
    by_cases hp : p.1 = k
    · simp [alGet, hp]
    · simp [alGet, hp, ih]

theorem alSet_forall {P : K × V → Prop} {l : List (K × V)} {k : K} {v : V}
    (hl : ∀ p ∈ l, P p) (hv : P (k, v)) : ∀ p ∈ alSet l k v, P p := by
  induction l with
  | nil => simpa [alSet] using hv
  | cons q t ih =>
    intro p hp
    obtain ⟨a, b⟩ := q
    by_cases ha : a = k
    · simp only [alSet, ha, if_pos, List.mem_cons] at hp
      rcases hp with hp | hp
      · exact hp ▸ hv
      · exact hl p (List.mem_cons_of_mem _ hp)
    · simp only [alSet, ha, if_neg, not_false_iff, List.mem_cons] at hp
      rcases hp with hp | hp
      · exact hl p (hp ▸ List.mem_cons_self _ _)
      · exact ih (fun r hr => hl r (List.mem_cons_of_mem _ hr)) p hp

theorem alErase_sublist (l : List (K × V)) (k : K) : (alErase l k).Sublist l :=
  List.filter_sublist l

theorem alSet_of_none {l : List (K × V)} {k : K} (v : V) (h : alGet l k = none) :
    alSet l k v = l ++ [(k, v)] := by
  induction l with
  | nil => simp [alSet]
  | cons p t ih =>
    obtain ⟨a, b⟩ := p
    by_cases ha : a = k
    · simp [alGet, ha] at h
    · simp only [alGet, ha, if_neg, not_false_iff] at h
      simp [alSet, ha, ih h]

theorem length_alSet_some {l : List (K × V)} {k : K} {v u : V} (h : alGet l k = some u) :
    (alSet l k v).length = l.length := by
  induction l with
  | nil => simp [alGet] at h
  | cons p t ih =>
    obtain ⟨a, b⟩ := p
    by_cases ha : a = k
    · simp [alSet, ha]
    · simp only [alGet, ha, if_neg, not_false_iff] at h
      simp [alSet, ha, ih h]

theorem map_alSet_some {W : Type} {f : K × V → W} {l : List (K × V)} {k : K} {v u : V}
    (h : alGet l k = some u) (hf : f (k, v) = f (k, u)) :
    (alSet l k v).map f = l.map f := by
  induction l with
  | nil => simp [alGet] at h
  | cons p t ih =>
    obtain ⟨a, b⟩ := p
    by_cases ha : a = k
    · subst ha
      simp only [alGet, if_pos] at h
      simp only [Option.some.injEq] at h
      subst h
      simp [alSet, hf]
    · simp only [alGet, ha, if_neg, not_false_iff] at h
      simp [alSet, ha, ih h]

theorem alGet_alSet_self (l : List (K × V)) (k : K) (v : V) :
    alGet (alSet l k v) k = some v := by
  induction l with
  | nil => simp [alSet, alGet]
  | cons p t ih =>
    obtain ⟨a, b⟩ := p
    by_cases ha : a = k
    · simp [alSet, ha, alGet]
    · simp [alSet, ha, alGet, ih]

theorem alGet_alErase_self (l : List (K × V)) (k : K) :
    alGet (alErase l k) k = none := by
  rw [alGet_eq_none]
  intro p hp
  have := List.of_mem_filter hp
  simpa using this

theorem keys_alSet_some {l : List (K × V)} {k : K} {v u : V} (h : alGet l k = some u) :
    (alSet l k v).map Prod.fst = l.map Prod.fst :=
  map_alSet_some h rfl

theorem keys_alSet_none {l : List (K × V)} {k : K} (v : V) (h : alGet l k = none) :
    (alSet l k v).map Prod.fst = l.map Prod.fst ++ [k] := by
  rw [alSet_of_none v h]
  simp

end AListLemmas

/-! ### Invariants of the room registry -/

/-- Capacity and nickname-uniqueness of one room. -/
def roomOK (r : Room) : Prop :=
  r.participants.length ≤ MAX_PARTICIPANTS ∧
  (r.participants.map (fun p => p.2.nickname)).Nodup

/-- All registered rooms are within capacity with distinct nicknames. -/
def roomsInv (st : ServerState) : Prop := ∀ p ∈ st.rooms, roomOK p.2

theorem roomOK_of_get {st : ServerState} {k : String} {r : Room}
    (h : roomsInv st) (hg : alGet st.rooms k = some r) : roomOK r :=
  h (k, r) (alGet_mem hg)

theorem nickMap_alSet (v : UserData) {l : List (String × UserData)} {k : String}
    {u : UserData} (h : alGet l k = some u) (hn : v.nickname = u.nickname) :
    (alSet l k v).map (fun q => q.2.nickname) = l.map (fun q => q.2.nickname) :=
  map_alSet_some h (by simp [hn])

theorem forall_of_sublist {α : Type} {P : α → Prop} {l l' : List α}
    (hs : l'.Sublist l) (h : ∀ p ∈ l, P p) : ∀ p ∈ l', P p :=
  fun p hp => h p (hs.subset hp)

theorem roomOK_removeParticipant {r : Room} (h : roomOK r) (sid : String) :
    roomOK (r.removeParticipant sid) := by
  obtain ⟨hlen, hnd⟩ := h
  constructor
  · exact le_trans (List.Sublist.length_le (alErase_sublist r.participants sid)) hlen
  · exact hnd.sublist (List.Sublist.map _ (alErase_sublist r.participants sid))

theorem roomsInv_createRoom {st : ServerState} (h : roomsInv st)
    (uuid : String) (hostId : Option String) (now : Nat) :
    roomsInv (createRoom st uuid hostId now).1 := by
  intro p hp
  refine alSet_forall h ?_ p hp
  constructor
  · simp [MAX_PARTICIPANTS]
  · simp

theorem roomsInv_onJoinRoom {st : ServerState} (h : roomsInv st)
    (sockId roomIdArg nickname : String) (now : Nat) :
    roomsInv (onJoinRoom st sockId roomIdArg nickname now).1 := by
  unfold onJoinRoom
  cases hg : alGet st.rooms (jsToUpper roomIdArg) with
  | none => exact h
  | some room =>
    by_cases hmem : alHas room.participants sockId
    · simp only [hmem, if_pos]
      exact h
    · by_cases hfull : room.participants.length ≥ MAX_PARTICIPANTS
      · simp only [hmem, hfull]
        simp only [Bool.false_eq_true, if_false, if_true]
        exact h
      · by_cases htaken : (room.participants.map (fun p => p.2.nickname)).contains nickname
        · simp only [hmem, hfull, htaken]
          simp only [Bool.false_eq_true, if_false, if_true]
          exact h
        · have hnone : alGet room.participants sockId = none := by
            unfold alHas at hmem
            cases halg : alGet room.participants sockId with
            | none => rfl
            | some u => rw [halg] at hmem; simp at hmem
          have hok : roomOK room := roomOK_of_get h hg
          have hnick : nickname ∉ room.participants.map (fun p => p.2.nickname) := by
            intro hx
            exact htaken (List.elem_iff.mpr hx)
          have hroomOK :
              roomOK { room with participants :=
                (alSet room.participants sockId
                  ({ nickname := nickname, isMuted := false, isVideoEnabled := true,
                     isHandRaised := false, joinedAt := now } : UserData)) } := by
            rw [roomOK]
            rw [alSet_of_none _ hnone]
            constructor
            · simp only [List.length_append, List.length_singleton]
              have := hfull
              simp only [not_le] at this
              omega
            · rw [List.map_append]
              refine List.Nodup.append hok.2 (by simp) ?_
              intro x hx hx1
              simp only [List.map_singleton, List.mem_singleton] at hx1
              subst hx1
              exact hnick hx
          simp only [hmem, hfull, htaken, Room.addParticipant, Bool.false_eq_true, if_false,
            if_true, if_neg hfull]
          intro p hp
          exact alSet_forall h hroomOK p hp

theorem roomsInv_onChatMessage {st : ServerState} (h : roomsInv st)
    (sockId message : String) (file : Option FileMeta) (newId : String) (now : Nat) :
    roomsInv (onChatMessage st sockId message file newId now).1 := by
  unfold onChatMessage
  cases hctx : sockRoomId st sockId with
  | none => exact h
  | some rid =>
    dsimp only
    cases hg : alGet st.rooms rid with
    | none => exact h
    | some room =>
      dsimp only
      intro p hp
      have hok : roomOK room := roomOK_of_get h hg
      refine alSet_forall h ?_ p hp
      exact hok

theorem roomsInv_onToggleMute {st : ServerState} (h : roomsInv st)
    (sockId : String) (b : Bool) :
    roomsInv (onToggleMute st sockId b).1 := by
  unfold onToggleMute
  cases hctx : sockRoomId st sockId with
  | none => exact h
  | some rid =>
    dsimp only
    cases hg : alGet st.rooms rid with
    | none => exact h
    | some room =>
      dsimp only
      cases hu : alGet room.participants sockId with
      | none => exact h
      | some u =>
        dsimp only
        intro p hp
        have hok : roomOK room := roomOK_of_get h hg
        have hok2 : (alSet room.participants sockId ({ u with isMuted := b } : UserData)).length ≤ MAX_PARTICIPANTS ∧
            ((alSet room.participants sockId ({ u with isMuted := b } : UserData)).map (fun q => q.2.nickname)).Nodup := by
          constructor
          · rw [length_alSet_some hu]
            exact hok.1
          · rw [nickMap_alSet ({ u with isMuted := b } : UserData) hu rfl]
            exact hok.2
        refine alSet_forall h ?_ p hp
        exact hok2

theorem roomsInv_onToggleRaiseHand {st : ServerState} (h : roomsInv st)
    (sockId : String) (b : Bool) :
    roomsInv (onToggleRaiseHand st sockId b).1 := by
  unfold onToggleRaiseHand
  cases hctx : sockRoomId st sockId with
  | none => exact h
  | some rid =>
    dsimp only
    cases hg : alGet st.rooms rid with
    | none => exact h
    | some room =>
      dsimp only
      cases hu : alGet room.participants sockId with
      | none => exact h
      | some u =>
        dsimp only
        intro p hp
        have hok : roomOK room := roomOK_of_get h hg
        have hok2 : (alSet room.participants sockId ({ u with isHandRaised := b } : UserData)).length ≤ MAX_PARTICIPANTS ∧
            ((alSet room.participants sockId ({ u with isHandRaised := b } : UserData)).map (fun q => q.2.nickname)).Nodup := by
          constructor
          · rw [length_alSet_some hu]
            exact hok.1
          · rw [nickMap_alSet ({ u with isHandRaised := b } : UserData) hu rfl]
            exact hok.2
        refine alSet_forall h ?_ p hp
        exact hok2

theorem roomsInv_onDisconnect {st : ServerState} (h : roomsInv st) (sockId : String) :
    roomsInv (onDisconnect st sockId).1 := by
  unfold onDisconnect
  cases hctx : sockRoomId st sockId with
  | none => exact h
  | some rid =>
    dsimp only
    cases hg : alGet st.rooms rid with
    | none => exact h
    | some room =>
      dsimp only
      by_cases hlen : (room.removeParticipant sockId).participants.length = 0
      · simp only [hlen, if_pos]
        exact forall_of_sublist (alErase_sublist st.rooms rid) h
      · simp only [hlen, if_neg, not_false_iff]
        intro p hp
        refine alSet_forall h ?_ p hp
        exact roomOK_removeParticipant (roomOK_of_get h hg) sockId

theorem roomsInv_step {st : ServerState} (h : roomsInv st) (e : Event) :
    roomsInv (step st e).1 := by
  cases e with
  | createRoom uuid hostId now => exact roomsInv_createRoom h uuid hostId now
  | joinRoom sockId roomId nickname now => exact roomsInv_onJoinRoom h sockId roomId nickname now
  | offer sockId roomId payload toArg => exact h
  | answer sockId roomId payload toArg => exact h
  | chatMessage sockId message file newId now =>
      exact roomsInv_onChatMessage h sockId message file newId now
  | toggleMute sockId b => exact roomsInv_onToggleMute h sockId b
  | toggleRaiseHand sockId b => exact roomsInv_onToggleRaiseHand h sockId b
  | disconnect sockId => exact roomsInv_onDisconnect h sockId

theorem roomsInv_reachable {st : ServerState} (h : Reachable st) : roomsInv st := by
  induction h with
  | init => intro p hp; simp [initState] at hp
  | step e _ ih => exact roomsInv_step ih e

/-! ### Invariants of the upload subsystem -/

/-- Size bounds of one session. -/
def uOK (s : UploadSession) : Prop :=
  s.bytesReceived ≤ s.size ∧ s.size ≤ MAX_SOCKET_UPLOAD_BYTES

/-- All live sessions of a connection satisfy the size bounds. -/
def uInv (c : UploadConn) : Prop := ∀ p ∈ c.sessions, uOK p.2

theorem uInv_ustep {c : UploadConn} (h : uInv c) (e : UEvent) : uInv (ustep c e).1 := by
  cases e with
  | mintRoom code => exact h
  | start roomId originalName mimeType sockRoomId size uploadId filename =>
    dsimp only [ustep]
    unfold fileUploadStart
    by_cases hroom : ¬ (UploadConn.roomCodes c).contains (jsToUpper (jsOrS roomId (jsOrS sockRoomId "")))
    · simp only [hroom, if_pos]
      exact h
    · simp only [hroom, if_neg, not_false_iff]
      cases size with
      | none => exact h
      | some z =>
        dsimp only
        by_cases hz : z ≤ 0
        · simp only [hz, if_pos]
          exact h
        · simp only [hz, if_neg, not_false_iff]
          by_cases hmax : z.toNat > MAX_SOCKET_UPLOAD_BYTES
          · simp only [hmax, if_pos]
            exact h
          · simp only [hmax, if_neg, not_false_iff]
            intro p hp
            refine alSet_forall h ?_ p hp
            rw [uOK]
            exact ⟨Nat.zero_le _, Nat.le_of_not_lt hmax⟩
  | chunk uploadId chunkLen =>
    dsimp only [ustep]
    unfold fileUploadChunk
    cases hs : alGet c.sessions uploadId with
    | none => exact h
    | some s =>
      dsimp only
      by_cases hc : s.closed = true
      · simp only [hc, if_pos]
        exact h
      · simp only [hc, if_neg, not_false_iff, Bool.false_eq_true]
        cases chunkLen with
        | none => exact h
        | some len =>
          dsimp only
          by_cases hx : s.bytesReceived + len > s.size ∨ s.bytesReceived + len > MAX_SOCKET_UPLOAD_BYTES
          · simp only [hx, if_pos]
            intro p hp
            exact h p ((alErase_sublist c.sessions uploadId).subset hp)
          · simp only [hx, if_neg, not_false_iff]
            intro p hp
            refine alSet_forall h ?_ p hp
            push_neg at hx
            have hsOK : uOK s := h (uploadId, s) (alGet_mem hs)
            rw [uOK]
            exact ⟨hx.1, hsOK.2⟩
  | complete uploadId newFileId now =>
    dsimp only [ustep]
    unfold fileUploadComplete
    cases hs : alGet c.sessions uploadId with
    | none => exact h
    | some s =>
      dsimp only
      intro p hp
      exact h p ((alErase_sublist c.sessions uploadId).subset hp)
  | disconnect =>
    intro p hp
    simp [ustep, uDisconnect] at hp

theorem uInv_reachable {c : UploadConn} (h : UReachable c) : uInv c := by
  induction h with
  | init => intro p hp; simp [uInit] at hp
  | step e _ ih => exact uInv_ustep ih e

/-! ### Invariants of the screen-share arbitration model -/

theorem sharerCount_cons (p : String × Bool) (t : List (String × Bool)) :
    sharerCount (p :: t) = (if p.2 then 1 else 0) + sharerCount t := by
  cases hp2 : p.2 <;> simp [sharerCount, List.filter, hp2, Nat.add_comm]

theorem sharerCount_sublist {l l' : List (String × Bool)} (hs : l'.Sublist l) :
    sharerCount l' ≤ sharerCount l :=
  List.Sublist.length_le (List.Sublist.filter _ hs)

theorem sharerCount_alSet_false (fl : List (String × Bool)) (u : String) :
    sharerCount (alSet fl u false) ≤ sharerCount fl := by
  induction fl with
  | nil => simp [alSet, sharerCount]
  | cons p t ih =>
    obtain ⟨a, b⟩ := p
    by_cases ha : a = u
    · simp only [alSet, ha, if_pos, sharerCount_cons]
      exact Nat.add_le_add (by simp) (Nat.le_refl _)
    · simp only [alSet, ha, if_neg, not_false_iff, sharerCount_cons]
      exact Nat.add_le_add (Nat.le_refl _) ih

theorem sharerCount_stop_le (fl : List (String × Bool)) (u : String) :
    sharerCount (screenShareStop fl u) ≤ sharerCount fl := by
  induction fl with
  | nil => simp [screenShareStop, sharerCount]
  | cons p t ih =>
    obtain ⟨a, b⟩ := p
    simp only [screenShareStop, List.map_cons, sharerCount_cons]
    refine Nat.add_le_add ?_ ih
    by_cases ha : a = u <;> simp [ha]

theorem sharerCount_start_zero {t : List (String × Bool)} {u : String}
    (h : u ∉ t.map Prod.fst) : sharerCount (screenShareStart t u) = 0 := by
  induction t with
  | nil => simp [screenShareStart, sharerCount]
  | cons p s ih =>
    obtain ⟨a, b⟩ := p
    simp only [List.map_cons, List.mem_cons] at h
    push_neg at h
    have ha : ¬ (a = u) := fun hau => h.1 hau.symm
    have hz := ih h.2
    rw [show screenShareStart s u = List.map (fun p => (p.1, decide (p.1 = u))) s from rfl] at hz
    simp only [screenShareStart, List.map_cons, sharerCount_cons, hz]
    simp [ha]

theorem sharerCount_start_le_one {fl : List (String × Bool)} {u : String}
    (hnd : (fl.map Prod.fst).Nodup) : sharerCount (screenShareStart fl u) ≤ 1 := by
  induction fl with
  | nil => simp [screenShareStart, sharerCount]
  | cons p t ih =>
    obtain ⟨a, b⟩ := p
    simp only [List.map_cons, List.nodup_cons] at hnd
    by_cases ha : a = u
    · subst ha
      simp only [screenShareStart, List.map_cons, sharerCount_cons]
      have hz : sharerCount (screenShareStart t a) = 0 := sharerCount_start_zero hnd.1
      rw [show screenShareStart t a = List.map (fun p => (p.1, decide (p.1 = a))) t from rfl] at hz
      simp only [hz]
      simp
    · simp only [screenShareStart, List.map_cons, sharerCount_cons]
      have h0 : (decide (a = u)) = false := by simp [ha]
      rw [h0]
      have h1 := ih hnd.2
      rw [show screenShareStart t u = List.map (fun p => (p.1, decide (p.1 = u))) t from rfl] at h1
      simpa using h1

theorem keys_screenShareStart (fl : List (String × Bool)) (u : String) :
    (screenShareStart fl u).map Prod.fst = fl.map Prod.fst := by
  induction fl with
  | nil => rfl
  | cons p t ih =>
    simp only [screenShareStart] at ih ⊢
    simp [ih]

theorem keys_screenShareStop (fl : List (String × Bool)) (u : String) :
    (screenShareStop fl u).map Prod.fst = fl.map Prod.fst := by
  induction fl with
  | nil => rfl
  | cons p t ih =>
    simp only [screenShareStop] at ih ⊢
    simp [ih]

/-- The inductive invariant of the screen-share model: distinct
participant keys and at most one sharer. -/
def sOK (fl : List (String × Bool)) : Prop :=
  (fl.map Prod.fst).Nodup ∧ sharerCount fl ≤ 1

theorem sOK_sstep {fl : List (String × Bool)} (h : sOK fl) (e : SEvent) :
    sOK (sstep fl e).1 := by
  cases e with
  | join u =>
    dsimp only [sstep]
    constructor
    · cases hu : alGet fl u with
      | none =>
        rw [keys_alSet_none false hu]
        have hnotin : u ∉ fl.map Prod.fst := by
          intro hx
          rw [alGet_eq_none] at hu
          rcases List.mem_map.mp hx with ⟨p, hp, hp1⟩
          exact hu p hp hp1
        simp [List.nodup_append, h.1, hnotin]
      | some b =>
        rw [keys_alSet_some hu]
        exact h.1
    · exact le_trans (sharerCount_alSet_false fl u) h.2
  | leave u =>
    dsimp only [sstep]
    constructor
    · exact h.1.sublist (List.Sublist.map _ (alErase_sublist fl u))
    · exact le_trans (sharerCount_sublist (alErase_sublist fl u)) h.2
  | start u nm =>
    dsimp only [sstep]
    constructor
    · rw [keys_screenShareStart]
      exact h.1
    · exact sharerCount_start_le_one h.1
  | stop u =>
    dsimp only [sstep]
    constructor
    · rw [keys_screenShareStop]
      exact h.1
    · exact le_trans (sharerCount_stop_le fl u) h.2

theorem sOK_reachable {fl : List (String × Bool)} (h : SReachable fl) : sOK fl := by
  induction h with
  | init => exact ⟨by simp, by simp [sharerCount]⟩
  | step e _ ih => exact sOK_sstep ih e

/-! ### Claim theorems -/

theorem mem_recipients_toRoomExcept (st : ServerState) (roomName sender x : String)
    (ev : OutEvent) :
    x ∈ emitRecipients st (Emit.toRoomExcept roomName sender ev) ↔
      ((x, roomName) ∈ st.sio ∧ x ≠ sender) := by
  simp only [emitRecipients, List.mem_dedup, List.mem_map, List.mem_filter,
    decide_eq_true_eq]
  constructor
  · rintro ⟨⟨a, b⟩, ⟨hmem, hcond⟩, rfl⟩
    exact ⟨hcond.1 ▸ hmem, hcond.2⟩
  · rintro ⟨hmem, hne⟩
    exact ⟨(x, roomName), ⟨hmem, rfl, hne⟩, rfl⟩

/-- C1: every `screen-share-start(room, userId, userName)` is broadcast to
the room, sets the sender's screen-sharing flag and clears every other
participant's flag, so every reachable flag state has at most one sharer;
every `screen-share-stop(room, userId)` is broadcast and clears the
sender's flag, leaving the others untouched.  (The server-side handlers
are modelled from the spec, see `screenShareStart` / `screenShareStop`.) -/
theorem screen_share_arbitration :
    (∀ (fl : List (String × Bool)) (u nm : String),
      (sstep fl (SEvent.start u nm)).2 = [ScreenEmit.startEv u nm] ∧
      (∀ b, (u, b) ∈ fl → (u, true) ∈ (sstep fl (SEvent.start u nm)).1) ∧
      (∀ p ∈ (sstep fl (SEvent.start u nm)).1, p.2 = true → p.1 = u)) ∧
    (∀ (fl : List (String × Bool)) (u : String),
      (sstep fl (SEvent.stop u)).2 = [ScreenEmit.stopEv u] ∧
      (∀ p ∈ (sstep fl (SEvent.stop u)).1, p.1 = u → p.2 = false) ∧
      (∀ (x : String) (b : Bool), (x, b) ∈ fl → x ≠ u → (x, b) ∈ (sstep fl (SEvent.stop u)).1)) ∧
    (∀ fl : List (String × Bool), SReachable fl → sharerCount fl ≤ 1) := by
  refine ⟨?_, ?_, ?_⟩
  · intro fl u nm
    refine ⟨rfl, ?_, ?_⟩
    · intro b hb
      have hmem := List.mem_map_of_mem (fun p => (p.1, decide (p.1 = u))) hb
      simpa [sstep, screenShareStart] using hmem
    · intro p hp ht
      simp only [sstep, screenShareStart, List.mem_map] at hp
      rcases hp with ⟨q, hq, rfl⟩
      simpa using ht
  · intro fl u
    refine ⟨rfl, ?_, ?_⟩
    · intro p hp h1
      simp only [sstep, screenShareStop, List.mem_map] at hp
      rcases hp with ⟨q, hq, rfl⟩
      simp only at h1
      simp [h1]
    · intro x b hb hne
      have hmem := List.mem_map_of_mem (fun p => (p.1, if p.1 = u then false else p.2)) hb
      simpa [sstep, screenShareStop, hne] using hmem
  · intro fl h
    exact (sOK_reachable h).2

theorem screen_share_arbitration_witness :
    sharerCount (sstep (sstep [] (SEvent.join "A")).1 (SEvent.start "A" "alice")).1 ≤ 1 ∧
    ("B", true) ∈ (sstep [("A", true), ("B", false)] (SEvent.start "B" "bob")).1 ∧
    (∀ p ∈ (sstep [("A", true), ("B", false)] (SEvent.start "B" "bob")).1,
      p.2 = true → p.1 = "B") ∧
    (sstep [("A", true), ("B", false)] (SEvent.stop "B")).2 = [ScreenEmit.stopEv "B"] :=
  ⟨screen_share_arbitration.2.2 _
      (SReachable.step (SEvent.start "A" "alice") (SReachable.step (SEvent.join "A") SReachable.init)),
   (screen_share_arbitration.1 [("A", true), ("B", false)] "B" "bob").2.1 false (by decide),
   (screen_share_arbitration.1 [("A", true), ("B", false)] "B" "bob").2.2,
   (screen_share_arbitration.2.1 [("A", true), ("B", false)] "B").1⟩

/-- C2 counterexample: in a room with participants A, B, C, the offer
`offer {roomId: ROOM1XYZ, sdp, to: B}` from participant A is relayed to
C as well, although the claim says it goes exactly to the single
connection `B` and to no other participant. -/
theorem offer_targeted_relay_counterexample :
    ((alGet c2State.rooms "ROOM1XYZ").map (fun r => alHas r.participants "A") = some true) ∧
    (step c2State (Event.offer "A" "ROOM1XYZ" "sdp" "B")).2 =
      [Emit.toRoomExcept "ROOM1XYZ" "A" (OutEvent.offerEv "sdp" "A")] ∧
    "C" ∈ emitRecipients c2State (Emit.toRoomExcept "ROOM1XYZ" "A" (OutEvent.offerEv "sdp" "A")) ∧
    ("C" : String) ≠ "B" := by decide

/-- C2 (amended): an `offer {roomId, offer, to}` (and symmetrically
`answer`) is relayed unchanged as `offer(from, payload)` to every
connection of the socket.io room named by the raw `roomId` string except
the sender — the `to` field is ignored and no check that the sender is a
participant of the room is made (the theorem has no membership
hypothesis) — and the server state is unchanged. -/
theorem offer_relay_room_broadcast (st : ServerState) (sockId roomIdArg payload toArg : String) :
    step st (Event.offer sockId roomIdArg payload toArg) =
      (st, [Emit.toRoomExcept roomIdArg sockId (OutEvent.offerEv payload sockId)]) ∧
    step st (Event.answer sockId roomIdArg payload toArg) =
      (st, [Emit.toRoomExcept roomIdArg sockId (OutEvent.answerEv payload sockId)]) ∧
    ∀ x : String,
      x ∈ emitRecipients st (Emit.toRoomExcept roomIdArg sockId (OutEvent.offerEv payload sockId)) ↔
        ((x, roomIdArg) ∈ st.sio ∧ x ≠ sockId) :=
  ⟨rfl, rfl, fun x => mem_recipients_toRoomExcept st roomIdArg sockId x _⟩

/-- C3 counterexample: a `join-room` by a connection that is already one
of the 10 participants of a full room does NOT fail with `Room is full`
— the rejoin branch answers first with the current view — so the claim
as stated (it fails whenever the room already has 10 or more
participants) is false. -/
theorem join_full_rejoin_counterexample :
    (alGet c3State.rooms "FULLROOM").map (fun r => r.participants.length) = some 10 ∧
    (step c3State (Event.joinRoom "s0" "FULLROOM" "n0" 99)).1 = c3State ∧
    (step c3State (Event.joinRoom "s0" "FULLROOM" "n0" 99)).2 =
      [Emit.toSock "s0" (OutEvent.roomJoined "FULLROOM" c3Participants false)] ∧
    (step c3State (Event.joinRoom "s0" "FULLROOM" "n0" 99)).2 ≠
      [Emit.toSock "s0" (OutEvent.errorMsg "Room is full")] := by decide

/-- C3 (amended): for a `join-room` whose sender is NOT already a
participant, an unknown code yields `error "Room not found"`, a full
room yields `error "Room is full"`, and (when the room is not full) a
duplicate nickname yields `error "Nickname already taken"`; each failure
returns the state unchanged and emits nothing but the error (in
particular no `user-joined` broadcast); and every reachable room has at
most `MAX_PARTICIPANTS` participants with pairwise-distinct nicknames. -/
theorem join_room_validation :
    (∀ (st : ServerState) (sockId roomIdArg nickname : String) (now : Nat),
      alGet st.rooms (jsToUpper roomIdArg) = none →
      step st (Event.joinRoom sockId roomIdArg nickname now) =
        (st, [Emit.toSock sockId (OutEvent.errorMsg "Room not found")])) ∧
    (∀ (st : ServerState) (sockId roomIdArg nickname : String) (now : Nat) (room : Room),
      alGet st.rooms (jsToUpper roomIdArg) = some room →
      alHas room.participants sockId = false →
      room.participants.length ≥ MAX_PARTICIPANTS →
      step st (Event.joinRoom sockId roomIdArg nickname now) =
        (st, [Emit.toSock sockId (OutEvent.errorMsg "Room is full")])) ∧
    (∀ (st : ServerState) (sockId roomIdArg nickname : String) (now : Nat) (room : Room),
      alGet st.rooms (jsToUpper roomIdArg) = some room →
      alHas room.participants sockId = false →
      room.participants.length < MAX_PARTICIPANTS →
      (room.participants.map (fun p => p.2.nickname)).contains nickname = true →
      step st (Event.joinRoom sockId roomIdArg nickname now) =
        (st, [Emit.toSock sockId (OutEvent.errorMsg "Nickname already taken")])) ∧
    (∀ st : ServerState, Reachable st → ∀ p ∈ st.rooms,
      p.2.participants.length ≤ MAX_PARTICIPANTS ∧
      (p.2.participants.map (fun q => q.2.nickname)).Nodup) := by
  refine ⟨?_, ?_, ?_, ?_⟩
  · intro st sockId roomIdArg nickname now h
    dsimp only [step]
    unfold onJoinRoom
    rw [h]
  · intro st sockId roomIdArg nickname now room hg hmem hfull
    dsimp only [step]
    unfold onJoinRoom
    rw [hg]
    dsimp only
    rw [if_neg (by simp [hmem]), if_pos hfull]
  · intro st sockId roomIdArg nickname now room hg hmem hlt htaken
    dsimp only [step]
    unfold onJoinRoom
    rw [hg]
    dsimp only
    rw [if_neg (by simp [hmem]), if_neg (not_le.mpr hlt), if_pos htaken]
  · intro st h
    exact roomsInv_reachable h

theorem join_room_validation_witness :
    (step initState (Event.joinRoom "S1" "ZZZZZZZZ" "zoe" 0) =
      (initState, [Emit.toSock "S1" (OutEvent.errorMsg "Room not found")])) ∧
    (step c3State (Event.joinRoom "sX" "FULLROOM" "zoe" 99) =
      (c3State, [Emit.toSock "sX" (OutEvent.errorMsg "Room is full")])) ∧
    (step c2State (Event.joinRoom "T1" "ROOM1XYZ" "alice" 9) =
      (c2State, [Emit.toSock "T1" (OutEvent.errorMsg "Nickname already taken")])) ∧
    (c2Room.participants.length ≤ MAX_PARTICIPANTS ∧
      (c2Room.participants.map (fun q => q.2.nickname)).Nodup) :=
  ⟨join_room_validation.1 initState "S1" "ZZZZZZZZ" "zoe" 0 (by decide),
   join_room_validation.2.1 c3State "sX" "FULLROOM" "zoe" 99 c3Room (by decide) (by decide)
     (by decide),
   join_room_validation.2.2.1 c2State "T1" "ROOM1XYZ" "alice" 9 c2Room (by decide) (by decide)
     (by decide) (by decide),
   join_room_validation.2.2.2 c2State
     (Reachable.step _ (Reachable.step _ (Reachable.step _ (Reachable.step _ Reachable.init))))
     ("ROOM1XYZ", c2Room) (by decide)⟩

/-- C4 counterexample: the first join into a freshly minted room (host
reference `temp-host`, naming no participant) does NOT make the joiner
host: the `room-joined` reply carries `isHost := false` and the room's
host reference still reads `temp-host` afterwards, contradicting the
claim. -/
theorem join_first_not_host_counterexample :
    (alGet c4Minted.rooms "K7QZ9M2A").map Room.hostId = some "temp-host" ∧
    (alGet c4Minted.rooms "K7QZ9M2A").map Room.participants = some [] ∧
    (step c4Minted (Event.joinRoom "C1" "K7QZ9M2A" "alice" 1)).2 =
      [Emit.toRoomExcept "K7QZ9M2A" "C1" (OutEvent.userJoined "C1"
         ({ nickname := "alice", isMuted := false, isVideoEnabled := true,
            isHandRaised := false, joinedAt := 1 } : UserData)),
       Emit.toSock "C1" (OutEvent.roomJoined "K7QZ9M2A"
         [("C1", { nickname := "alice", isMuted := false, isVideoEnabled := true,
                   isHandRaised := false, joinedAt := 1 })] false)] ∧
    (alGet (step c4Minted (Event.joinRoom "C1" "K7QZ9M2A" "alice" 1)).1.rooms
      "K7QZ9M2A").map Room.hostId = some "temp-host" := by decide

/-- C4 (amended): a successful `join-room` never reassigns the host
reference — the updated room keeps `room.hostId` exactly as stored at
`create-room` — and the `room-joined` reply carries
`isHost = (room.hostId = sockId)`; in particular the first joiner of a
freshly minted room (host reference `temp-host`) receives
`isHost: false`. -/
theorem join_host_flag (st : ServerState) (sockId roomIdArg nickname : String) (now : Nat)
    (room : Room)
    (hg : alGet st.rooms (jsToUpper roomIdArg) = some room)
    (hmem : alHas room.participants sockId = false)
    (hfull : ¬ room.participants.length ≥ MAX_PARTICIPANTS)
    (htaken : (room.participants.map (fun p => p.2.nickname)).contains nickname = false) :
    step st (Event.joinRoom sockId roomIdArg nickname now) =
      ({ rooms := alSet st.rooms (jsToUpper roomIdArg)
           { room with participants :=
               (alSet room.participants sockId
                 ({ nickname := nickname, isMuted := false, isVideoEnabled := true,
                    isHandRaised := false, joinedAt := now } : UserData)) },
         sio := (sockId, roomIdArg) :: st.sio,
         socks := alSet st.socks sockId { roomId := some roomIdArg, nickname := some nickname } },
       [Emit.toRoomExcept roomIdArg sockId (OutEvent.userJoined sockId
          ({ nickname := nickname, isMuted := false, isVideoEnabled := true,
             isHandRaised := false, joinedAt := now } : UserData)),
        Emit.toSock sockId (OutEvent.roomJoined roomIdArg
          (alSet room.participants sockId
            ({ nickname := nickname, isMuted := false, isVideoEnabled := true,
               isHandRaised := false, joinedAt := now } : UserData))
          (room.hostId = sockId))]) ∧
    (alGet (step st (Event.joinRoom sockId roomIdArg nickname now)).1.rooms
      (jsToUpper roomIdArg)).map Room.hostId = some room.hostId := by
  have h1 : step st (Event.joinRoom sockId roomIdArg nickname now) =
      ({ rooms := alSet st.rooms (jsToUpper roomIdArg)
           { room with participants :=
               (alSet room.participants sockId
                 ({ nickname := nickname, isMuted := false, isVideoEnabled := true,
                    isHandRaised := false, joinedAt := now } : UserData)) },
         sio := (sockId, roomIdArg) :: st.sio,
         socks := alSet st.socks sockId { roomId := some roomIdArg, nickname := some nickname } },
       [Emit.toRoomExcept roomIdArg sockId (OutEvent.userJoined sockId
          ({ nickname := nickname, isMuted := false, isVideoEnabled := true,
             isHandRaised := false, joinedAt := now } : UserData)),
        Emit.toSock sockId (OutEvent.roomJoined roomIdArg
          (alSet room.participants sockId
            ({ nickname := nickname, isMuted := false, isVideoEnabled := true,
               isHandRaised := false, joinedAt := now } : UserData))
          (room.hostId = sockId))]) := by
    dsimp only [step]
    unfold onJoinRoom
    rw [hg]
    dsimp only
    rw [if_neg (by simp [hmem]), if_neg hfull,
      if_neg (by rw [htaken]; exact Bool.false_ne_true)]
    unfold Room.addParticipant
    rw [if_neg hfull]
    dsimp only
    rw [if_pos rfl]
  refine ⟨h1, ?_⟩
  rw [h1]
  dsimp only
  rw [alGet_alSet_self]
  rfl

theorem join_host_flag_witness :
    (alGet c4Minted.rooms (jsToUpper "K7QZ9M2A") = some c4Room) ∧
    ((alGet (step c4Minted (Event.joinRoom "C1" "K7QZ9M2A" "alice" 1)).1.rooms
        (jsToUpper "K7QZ9M2A")).map Room.hostId = some c4Room.hostId) :=
  ⟨by decide,
   (join_host_flag c4Minted "C1" "K7QZ9M2A" "alice" 1 c4Room (by decide) (by decide)
     (by decide) (by decide)).2⟩

/-- C5: a repeated `join-room` from a connection already in the room's
participant map succeeds with the current room view (participant list
and host flag) and mutates nothing — the state comes back unchanged and
the single emission is the `room-joined` reply to the sender, so no
`user-joined` broadcast, no participant-map, host, or chat-log change. -/
theorem rejoin_is_idempotent (st : ServerState) (sockId roomIdArg nickname : String)
    (now : Nat) (room : Room)
    (hg : alGet st.rooms (jsToUpper roomIdArg) = some room)
    (hmem : alHas room.participants sockId = true) :
    step st (Event.joinRoom sockId roomIdArg nickname now) =
      (st, [Emit.toSock sockId
        (OutEvent.roomJoined roomIdArg room.participants (room.hostId = sockId))]) := by
  dsimp only [step]
  unfold onJoinRoom
  rw [hg]
  dsimp only
  rw [if_pos hmem]

theorem rejoin_is_idempotent_witness :
    step c5State (Event.joinRoom "S1" "AB12CD34" "alice" 2) =
      (c5State, [Emit.toSock "S1"
        (OutEvent.roomJoined "AB12CD34" c5Room.participants (c5Room.hostId = "S1"))]) :=
  rejoin_is_idempotent c5State "S1" "AB12CD34" "alice" 2 c5Room (by decide) (by decide)

/-- C6: code bug witnessed at a concrete run — the room is minted as
`AB12CD34`, the participant joins through the lower-case spelling
`ab12cd34` (the join lookup case-folds, so it succeeds and stores the
raw string on the socket), but `disconnect` resolves
`rooms.get(socket.roomId)` WITHOUT case-folding, misses the room, and
removes nothing: no `user-left` is emitted, the participant is still in
the participant map, and the room is still resolvable by lookup. -/
theorem disconnect_lowercase_code_bug :
    sockRoomId c6Joined "S1" = some "ab12cd34" ∧
    (alGet c6Joined.rooms "AB12CD34").map (fun r => alHas r.participants "S1") = some true ∧
    (step c6Joined (Event.disconnect "S1")).2 = [] ∧
    (alGet (step c6Joined (Event.disconnect "S1")).1.rooms "AB12CD34").map
      (fun r => alHas r.participants "S1") = some true ∧
    (lookupRoom (step c6Joined (Event.disconnect "S1")).1 "ab12cd34").isSome = true := by
  decide

/-- C7: a `file-upload-chunk` on a live session whose cumulative byte
count would exceed the declared size or the 25 MiB cap aborts the
session — the write stream is closed, the partial file is gone from
disk, the session is removed — and the ack is the file-exceeded error;
and in every reachable state every surviving session satisfies
`0 ≤ bytesReceived ≤ declared size ≤ 25 MiB`. -/
theorem upload_chunk_quota :
    (∀ (c : UploadConn) (uploadId : String) (s : UploadSession) (len : Nat),
      alGet c.sessions uploadId = some s → s.closed = false →
      (s.bytesReceived + len > s.size ∨ s.bytesReceived + len > MAX_SOCKET_UPLOAD_BYTES) →
      ustep c (UEvent.chunk uploadId (some len)) =
        ({ c with sessions := alErase c.sessions uploadId,
                  disk := alErase c.disk s.filename,
                  openStreams := c.openStreams.filter (fun f => f ≠ s.filename) },
         some (UAck.err "File exceeded declared size")) ∧
      alGet (ustep c (UEvent.chunk uploadId (some len))).1.sessions uploadId = none ∧
      alGet (ustep c (UEvent.chunk uploadId (some len))).1.disk s.filename = none ∧
      s.filename ∉ (ustep c (UEvent.chunk uploadId (some len))).1.openStreams) ∧
    (∀ c : UploadConn, UReachable c → ∀ p ∈ c.sessions,
      0 ≤ p.2.bytesReceived ∧ p.2.bytesReceived ≤ p.2.size ∧
      p.2.size ≤ MAX_SOCKET_UPLOAD_BYTES) := by
  constructor
  · intro c uploadId s len hs hc hx
    have h1 : ustep c (UEvent.chunk uploadId (some len)) =
        ({ c with sessions := alErase c.sessions uploadId,
                  disk := alErase c.disk s.filename,
                  openStreams := c.openStreams.filter (fun f => f ≠ s.filename) },
         some (UAck.err "File exceeded declared size")) := by
      dsimp only [ustep]
      unfold fileUploadChunk
      rw [hs]
      dsimp only
      rw [if_neg (by rw [hc]; exact Bool.false_ne_true)]
      rw [if_pos hx]
    refine ⟨h1, ?_, ?_, ?_⟩
    · rw [h1]
      exact alGet_alErase_self _ _
    · rw [h1]
      exact alGet_alErase_self _ _
    · rw [h1]
      intro hmem
      have hcond := List.of_mem_filter hmem
      simp at hcond
  · intro c h p hp
    exact ⟨Nat.zero_le _, (uInv_reachable h p hp).1, (uInv_reachable h p hp).2⟩

theorem upload_chunk_quota_witness :
    ((ustep c7Mid (UEvent.chunk "u1" (some 400))).2 =
       some (UAck.err "File exceeded declared size") ∧
     alGet (ustep c7Mid (UEvent.chunk "u1" (some 400))).1.sessions "u1" = none ∧
     alGet (ustep c7Mid (UEvent.chunk "u1" (some 400))).1.disk "a-1.bin" = none) ∧
    (0 ≤ c7Session.bytesReceived ∧ c7Session.bytesReceived ≤ c7Session.size ∧
      c7Session.size ≤ MAX_SOCKET_UPLOAD_BYTES) := by
  have h := upload_chunk_quota.1 c7Mid "u1" c7Session 400 (by decide) (by decide) (by decide)
  have h2 := upload_chunk_quota.2 c7Mid
    (UReachable.step _ (UReachable.step _ (UReachable.step _
      (UReachable.step _ UReachable.init))))
    ("u1", c7Session) (by decide)
  refine ⟨⟨?_, h.2.1, h.2.2.1⟩, h2⟩
  rw [h.1]

/-- C8: `file-upload-complete` on a known session closes the stream,
removes the session, leaves the stored file on disk untouched, and only
then acks with a FileMeta whose `size` is exactly the accumulated byte
count and whose URL is `/uploads/` + storage filename; each accepted
chunk adds exactly its byte length to that count (so the final size is
the sum of the appended chunk lengths); no hypothesis compares the byte
count with the declared size, so a finalized partial upload is accepted
at its actual length. -/
theorem upload_complete_meta :
    (∀ (c : UploadConn) (uploadId newFileId : String) (now : Nat) (s : UploadSession),
      alGet c.sessions uploadId = some s →
      ustep c (UEvent.complete uploadId newFileId now) =
        ({ c with sessions := alErase c.sessions uploadId,
                  openStreams := c.openStreams.filter (fun f => f ≠ s.filename) },
         some (UAck.okComplete
           { id := newFileId, originalName := s.originalName, mimeType := s.mimeType,
             size := s.bytesReceived, url := "/uploads/" ++ s.filename,
             uploadedAt := now })) ∧
      alGet (ustep c (UEvent.complete uploadId newFileId now)).1.sessions uploadId = none ∧
      alGet (ustep c (UEvent.complete uploadId newFileId now)).1.disk s.filename =
        alGet c.disk s.filename) ∧
    (∀ (c : UploadConn) (uploadId : String) (s : UploadSession) (len : Nat),
      alGet c.sessions uploadId = some s → s.closed = false →
      ¬(s.bytesReceived + len > s.size ∨ s.bytesReceived + len > MAX_SOCKET_UPLOAD_BYTES) →
      (ustep c (UEvent.chunk uploadId (some len))).2 =
        some (UAck.okChunk (s.bytesReceived + len)) ∧
      alGet (ustep c (UEvent.chunk uploadId (some len))).1.sessions uploadId =
        some { s with bytesReceived := s.bytesReceived + len }) := by
  constructor
  · intro c uploadId newFileId now s hs
    have h1 : ustep c (UEvent.complete uploadId newFileId now) =
        ({ c with sessions := alErase c.sessions uploadId,
                  openStreams := c.openStreams.filter (fun f => f ≠ s.filename) },
         some (UAck.okComplete
           { id := newFileId, originalName := s.originalName, mimeType := s.mimeType,
             size := s.bytesReceived, url := "/uploads/" ++ s.filename,
             uploadedAt := now })) := by
      dsimp only [ustep]
      unfold fileUploadComplete
      rw [hs]
    refine ⟨h1, ?_, ?_⟩
    · rw [h1]
      exact alGet_alErase_self _ _
    · rw [h1]
  · intro c uploadId s len hs hc hx
    have h1 : ustep c (UEvent.chunk uploadId (some len)) =
        ({ c with sessions := alSet c.sessions uploadId
                    { s with bytesReceived := s.bytesReceived + len },
                  disk := alSet c.disk s.filename
                    ((alGet c.disk s.filename).getD 0 + len) },
         some (UAck.okChunk (s.bytesReceived + len))) := by
      dsimp only [ustep]
      unfold fileUploadChunk
      rw [hs]
      dsimp only
      rw [if_neg (by rw [hc]; exact Bool.false_ne_true)]
      rw [if_neg hx]
    refine ⟨?_, ?_⟩
    · rw [h1]
    · rw [h1]
      exact alGet_alSet_self _ _ _

theorem upload_complete_meta_witness :
    ((ustep c8Mid (UEvent.complete "u2" "fid1" 9)).2 =
       some (UAck.okComplete
         { id := "fid1", originalName := "b.bin", mimeType := "application/x",
           size := 400, url := "/uploads/b-1.bin", uploadedAt := 9 }) ∧
     c8Session.bytesReceived = 400 ∧ c8Session.size = 1000 ∧
     alGet (ustep c8Mid (UEvent.complete "u2" "fid1" 9)).1.disk "b-1.bin" = some 400) ∧
    ((ustep ((ustep c8Mid (UEvent.chunk "u2" (some 100))).1)
        (UEvent.chunk "u2" (some 0))).2 = some (UAck.okChunk 500)) := by
  have h := (upload_complete_meta.1 c8Mid "u2" "fid1" 9 c8Session (by decide)).1
  have h2 := (upload_complete_meta.2 c8Mid "u2" c8Session 100 (by decide) (by decide)
    (by decide)).1
  refine ⟨⟨?_, by decide, by decide, ?_⟩, by decide⟩
  · rw [h]
    decide
  · rw [h]
    decide

/-- C9: on disconnect every upload session of the connection is torn
down: the session table is emptied, each session's partial file is no
longer on disk, its write stream is no longer open, and no
acknowledgement is produced. -/
theorem disconnect_clears_uploads :
    ∀ (c : UploadConn) (p : String × UploadSession), p ∈ c.sessions →
      (ustep c UEvent.disconnect).1.sessions = [] ∧
      alGet (ustep c UEvent.disconnect).1.disk p.2.filename = none ∧
      p.2.filename ∉ (ustep c UEvent.disconnect).1.openStreams ∧
      (ustep c UEvent.disconnect).2 = none := by
  intro c p hp
  refine ⟨rfl, ?_, ?_, rfl⟩
  · rw [alGet_eq_none]
    intro d hd
    dsimp only [ustep, uDisconnect] at hd
    have hcond := List.of_mem_filter hd
    simp only [decide_eq_true_eq] at hcond
    intro hd1
    apply hcond
    rw [List.any_eq_true]
    exact ⟨p, hp, by simp [hd1]⟩
  · intro hmem
    dsimp only [ustep, uDisconnect] at hmem
    have hcond := List.of_mem_filter hmem
    simp only [decide_eq_true_eq] at hcond
    apply hcond
    rw [List.any_eq_true]
    exact ⟨p, hp, by simp⟩

theorem disconnect_clears_uploads_witness :
    (ustep c9State UEvent.disconnect).1.sessions = [] ∧
    alGet (ustep c9State UEvent.disconnect).1.disk c9Session.filename = none ∧
    c9Session.filename ∉ (ustep c9State UEvent.disconnect).1.openStreams ∧
    (ustep c9State UEvent.disconnect).2 = none :=
  disconnect_clears_uploads c9State ("u3", c9Session) (by decide)

/-- C10 counterexample: a `chat-message` with empty text and no file
from a room-bound connection is NOT ignored — the record (empty text,
null file) is appended to the room's chat log and broadcast to the whole
room — refuting the claim that nothing is appended and nothing is
broadcast. -/
theorem chat_empty_message_counterexample :
    sockRoomId c10Bound "S1" = some "AB12CD34" ∧
    (step c10Bound (Event.chatMessage "S1" "" none "m1" 5)).2 =
      [Emit.toRoom "AB12CD34" (OutEvent.chatMsg
        { id := "m1", socketId := "S1", nickname := some "alice", message := "",
          file := none, timestamp := 5 })] ∧
    (alGet (step c10Bound (Event.chatMessage "S1" "" none "m1" 5)).1.rooms "AB12CD34").map
      (fun r => r.messages.length) = some 1 := by decide

/-- C10 (amended): a `chat-message` with empty text and no file from a
connection whose stored room resolves in the registry is appended to
that room's chat log (as a record with empty text and null file) and
broadcast to the whole room including the sender; only a message from a
connection with no bound room is silently dropped. -/
theorem chat_empty_message_behavior :
    (∀ (st : ServerState) (sockId newId : String) (now : Nat) (rid : String) (room : Room),
      sockRoomId st sockId = some rid →
      alGet st.rooms rid = some room →
      step st (Event.chatMessage sockId "" none newId now) =
        ({ st with rooms := (alSet st.rooms rid
             { room with messages := room.messages ++
                 [{ id := newId, socketId := sockId, nickname := sockNickname st sockId,
                    message := "", file := none, timestamp := now }] }) },
         [Emit.toRoom rid (OutEvent.chatMsg
           { id := newId, socketId := sockId, nickname := sockNickname st sockId,
             message := "", file := none, timestamp := now })])) ∧
    (∀ (st : ServerState) (sockId message : String) (file : Option FileMeta)
        (newId : String) (now : Nat),
      sockRoomId st sockId = none →
      step st (Event.chatMessage sockId message file newId now) = (st, [])) := by
  constructor
  · intro st sockId newId now rid room hctx hg
    dsimp only [step]
    unfold onChatMessage
    rw [hctx]
    dsimp only
    rw [hg]
  · intro st sockId message file newId now hctx
    dsimp only [step]
    unfold onChatMessage
    rw [hctx]

theorem chat_empty_message_behavior_witness :
    step c10Bound (Event.chatMessage "S1" "" none "m1" 5) =
      ({ c10Bound with rooms := (alSet c10Bound.rooms "AB12CD34"
           { c5Room with messages := c5Room.messages ++
               [{ id := "m1", socketId := "S1", nickname := sockNickname c10Bound "S1",
                  message := "", file := none, timestamp := 5 }] }) },
       [Emit.toRoom "AB12CD34" (OutEvent.chatMsg
         { id := "m1", socketId := "S1", nickname := sockNickname c10Bound "S1",
           message := "", file := none, timestamp := 5 })]) ∧
    step initState (Event.chatMessage "S2" "hello" none "m2" 6) = (initState, []) :=
  ⟨chat_empty_message_behavior.1 c10Bound "S1" "m1" 5 "AB12CD34" c5Room (by decide) (by decide),
   chat_empty_message_behavior.2 initState "S2" "hello" none "m2" 6 (by decide)⟩

theorem offer_relay_room_broadcast_witness :
    step c2State (Event.offer "A" "ROOM1XYZ" "sdp" "B") =
      (c2State, [Emit.toRoomExcept "ROOM1XYZ" "A" (OutEvent.offerEv "sdp" "A")]) ∧
    ("C" ∈ emitRecipients c2State
        (Emit.toRoomExcept "ROOM1XYZ" "A" (OutEvent.offerEv "sdp" "A")) ↔
      (("C", "ROOM1XYZ") ∈ c2State.sio ∧ ("C" : String) ≠ "A")) :=
  ⟨(offer_relay_room_broadcast c2State "A" "ROOM1XYZ" "sdp" "B").1,
   (offer_relay_room_broadcast c2State "A" "ROOM1XYZ" "sdp" "B").2.2 "C"⟩
